import Mathlib

/-!
Verification of the pipoe dependency-resolution tool (src/pipoe/pipoe.py,
src/pipoe/licenses.py) against its natural-language specification.

The Python source is shallowly embedded: pure helpers become Lean functions
over `String`/`List Char`; the process-global mutable state
(`PROCESSED_PACKAGES`, `licenses.LICENSES`) is threaded explicitly through an
`EngineState`; network and filesystem effects (the PyPI JSON endpoints,
artifact download and unpacking in `get_package_file_info`, the
`fetch_requirements_from_remote_package` fallback, and the interactive
`input()` prompt) are modelled as an oracle record `World`, each oracle
returning `Except String` to model the exceptions those calls can raise.
Python exceptions are modelled with `Except` throughout: `Except.error ()`
stands for an exception escaping a function that has no handler of its own
(e.g. `TypeError` from comparing `int` with `str`), and the `try`/`except`
block of `get_package_info` is modelled by an explicit catch on the body's
`Except String Unit` component.
-/

deriving instance DecidableEq for Except

namespace Pipoe

/-! ### Section 1: the version comparator (`compare_versions`, pipoe.py:347-374) -/

/-- One element of the list produced by `normalize` inside `compare_versions`:
`int(part)` when the part is purely numeric, the raw string part otherwise. -/
inductive VPart where
  | num (n : Nat)
  | str (s : List Char)
deriving DecidableEq

/-- Python `str.split(c)` for a single-character separator, on the character
list of the string.  `"".split(c)` yields one empty part, as in Python. -/
def splitChar (c : Char) : List Char → List (List Char)
  | [] => [[]]
  | a :: rest =>
    let r := splitChar c rest
    if a = c then [] :: r
    else
      match r with
      | h :: t => (a :: h) :: t
      | [] => [[a]]

/-- Python `str.isdigit()` on an ASCII string: non-empty and all digits. -/
def pyIsDigit (part : List Char) : Bool :=
  !part.isEmpty && part.all Char.isDigit

/-- Python `int(part)` for a purely numeric part. -/
def charsToNat (part : List Char) : Nat :=
  part.foldl (fun acc c => acc * 10 + (c.toNat - 48)) 0

/-- The inner `normalize` of `compare_versions`:
`version.replace("-", ".").split(".")`, with purely numeric parts converted
to integers (pipoe.py:359-361). -/
def normalize (version : String) : List VPart :=
  (splitChar '.' (version.toList.map fun c => if c = '-' then '.' else c)).map
    fun part => if pyIsDigit part then VPart.num (charsToNat part) else VPart.str part

/-- Python `<` on two strings (lexicographic by code point). -/
def pyStrLt : List Char → List Char → Bool
  | [], [] => false
  | [], _ :: _ => true
  | _ :: _, [] => false
  | a :: as_, b :: bs => if a = b then pyStrLt as_ bs else decide (a < b)

/-- The comparison loop of `compare_versions` (pipoe.py:366-374): walk the
`zip` of the two part lists, skip equal pairs, decide on the first differing
pair.  Comparing an `int` part with a `str` part raises `TypeError` in
Python 3, modelled as `Except.error ()`. -/
def cmpParts : List VPart → List VPart → Except Unit Int
  | p1 :: r1, p2 :: r2 =>
    if p1 = p2 then cmpParts r1 r2
    else
      match p1, p2 with
      | .num a, .num b => .ok (if a < b then -1 else 1)
      | .str a, .str b => .ok (if pyStrLt a b then -1 else 1)
      | _, _ => .error ()
  | _, _ => .ok 0

/-- Embedding of `compare_versions` (pipoe.py:347-374) on two strings.
`if not version1: return -1` is the empty-string guard. -/
def compare_versions (version1 version2 : String) : Except Unit Int :=
  if version1 = "" then .ok (-1)
  else cmpParts (normalize version1) (normalize version2)

/-- `compare_versions` as called by `check_package_already_processed`, where
either argument may be Python `None`: `not None` is true, so a `None` first
operand returns -1; a `None` second operand (with a truthy first operand)
raises `AttributeError` inside `normalize` (`None.replace`). -/
def compare_versions_py (v1 v2 : Option String) : Except Unit Int :=
  match v1 with
  | none => .ok (-1)
  | some s =>
    if s = "" then .ok (-1)
    else
      match v2 with
      | none => .error ()
      | some t => cmpParts (normalize s) (normalize t)

/-- Both parts of a pair are of the same host type (`int`/`int` or
`str`/`str`), so Python can order them without a `TypeError`. -/
def sameKind : VPart → VPart → Bool
  | .num _, .num _ => true
  | .str _, .str _ => true
  | _, _ => false

/-- Every zipped part pair of the two versions is same-kind. -/
def allPairsSameKind (a b : String) : Bool :=
  ((normalize a).zip (normalize b)).all fun pq => sameKind pq.1 pq.2


/-! ### Section 2: license normalization (`translate_license`, pipoe.py:123-143,
and the seed table `licenses.LICENSES`, licenses.py:1-228)

`licenses.LICENSES` is a process-global mutable dict; it is modelled as an
association list threaded through the functions that read or extend it.  Keys
are `Option String` because `LICENSES[license]` on the interactive fallback
path uses the original declared license, which may be Python `None`. -/

/-- The license table: free-text declaration or classifier, canonical id. -/
abbrev LTable := List (Option String × String)

/-- The single-quote character. -/
def singleQuoteChar : Char := Char.ofNat 39

/-- The double-quote character. -/
def doubleQuoteChar : Char := Char.ofNat 34

/-- Python `str.strip(c)` for a one-character strip set: removes leading and
trailing occurrences of `c` only (never whitespace). -/
def stripChar (c : Char) (s : String) : String :=
  String.mk (((s.toList.dropWhile (· = c)).reverse.dropWhile (· = c)).reverse)

/-- `license.strip("'").strip('"')` (pipoe.py:127): first surrounding single
quotes, then surrounding double quotes. -/
def stripQuotes (s : String) : String :=
  stripChar doubleQuoteChar (stripChar singleQuoteChar s)

/-- Python dict lookup `LICENSES[k]`; `none` models the `KeyError` path. -/
def lookupL (tbl : LTable) (k : Option String) : Option String :=
  match tbl with
  | [] => none
  | e :: rest => if e.1 = k then some e.2 else lookupL rest k

/-- Python dict assignment `LICENSES[k] = v`: overwrite in place or append. -/
def insertL (tbl : LTable) (k : Option String) (v : String) : LTable :=
  match tbl with
  | [] => [(k, v)]
  | e :: rest => if e.1 = k then (k, v) :: rest else e :: insertL rest k v

/-- Python `str.startswith(pre)`. -/
def pyStartsWith (s pre : String) : Bool :=
  pre.toList.isPrefixOf s.toList

/-- The declared-string branch of `translate_license` (pipoe.py:125-129): a
truthy declared license is stripped of surrounding quote characters and looked
up; a `KeyError` is swallowed by the inner bare `except: pass`. -/
def declaredLookup (tbl : LTable) (license : Option String) : Option String :=
  match license with
  | none => none
  | some l => if l = "" then none else lookupL tbl (some (stripQuotes l))

/-- The outer `except` handler of `translate_license` (pipoe.py:136-143): a
truthy configured default license is returned unchanged; otherwise the
operator is prompted (`input()`, modelled by `opInput`) and the supplied
mapping is stored under the original declared license. -/
def licenseFallback (tbl : LTable) (license : Option String)
    (default_license : Option String) (opInput : String) : String × LTable :=
  match default_license with
  | some d => if d = "" then (opInput, insertL tbl license opInput) else (d, tbl)
  | none => (opInput, insertL tbl license opInput)

/-- Embedding of `translate_license` (pipoe.py:123-143).  Returns the chosen
canonical id together with the (possibly extended) license table.  A miss on
the first classifier that starts with `"License"` raises `KeyError`, which the
outer handler turns into the fallback path; later classifiers are never
consulted after such a miss, exactly as in the source. -/
def translate_license (tbl : LTable) (license : Option String)
    (classifiers : List String) (default_license : Option String)
    (opInput : String) : String × LTable :=
  match declaredLookup tbl license with
  | some v => (v, tbl)
  | none =>
    match classifiers.find? (fun c => pyStartsWith c "License") with
    | some c =>
      match lookupL tbl (some c) with
      | some v => (v, tbl)
      | none => licenseFallback tbl license default_license opInput
    | none => licenseFallback tbl license default_license opInput

/-- The seed table `licenses.LICENSES` (licenses.py:1-228), verbatim. -/
def LICENSES : LTable := [
  (some "AAL", "AAL"),
  (some "AFL-1.2", "AFL-1.2"),
  (some "AFL-2.0", "AFL-2.0"),
  (some "AFL-2.1", "AFL-2.1"),
  (some "AFL-3.0", "AFL-3.0"),
  (some "AGPL-3.0", "AGPL-3.0"),
  (some "ANTLR-PD", "ANTLR-PD"),
  (some "APL-1.0", "APL-1.0"),
  (some "APL2", "Apache-2.0"),
  (some "APSL-1.0", "APSL-1.0"),
  (some "APSL-1.1", "APSL-1.1"),
  (some "APSL-1.2", "APSL-1.2"),
  (some "APSL-2.0", "APSL-2.0"),
  (some "ASL", "Apache-2.0"),
  (some "Adobe", "Adobe"),
  (some "Apache", "Apache-2.0"),
  (some "Apache 2.0", "Apache-2.0"),
  (some "Apache-2.0 license", "Apache-2.0"),
  (some "Apache License 2.0", "Apache-2.0"),
  (some "Apache License, Version 2.0", "Apache-2.0"),
  (some "Apache Software License, Version 2", "Apache-2.0"),
  (some "Apache Software License", "Apache-2.0"),
  (some "Apache-2.0 WITH LLVM-exception", "Apache-2.0-with-LLVM-exception"),
  (some "Apache-1.0", "Apache-1.0"),
  (some "Apache-1.1", "Apache-1.1"),
  (some "Apache-2.0", "Apache-2.0"),
  (some "Artistic-1.0", "Artistic-1.0"),
  (some "Artistic-2.0", "Artistic-2.0"),
  (some "BSD", "BSD"),
  (some "BSD - See ndg/httpsclient/LICENCE file for details", "BSD"),
  (some "BSD 3-Clause", "BSD-3-Clause"),
  (some "BSD 3-Clause License", "BSD-3-Clause"),
  (some "BSD License", "BSD"),
  (some "BSD or Apache License, Version 2.0", "BSD"),
  (some "BSD, Public Domain", "BSD"),
  (some "BSD-2-Clause", "BSD-2-Clause"),
  (some "BSD-3-Clause", "BSD-3-Clause"),
  (some "BSD-4-Clause", "BSD-4-Clause"),
  (some "BSD-derived (http://www.repoze.org/LICENSE.txt)", "BSD"),
  (some "BSD-like", "BSD"),
  (some "BSL-1.0", "BSL-1.0"),
  (some "BitstreamVera", "BitstreamVera"),
  (some "CATOSL-1.1", "CATOSL-1.1"),
  (some "CC-BY-1.0", "CC-BY-1.0"),
  (some "CC-BY-2.0", "CC-BY-2.0"),
  (some "CC-BY-2.5", "CC-BY-2.5"),
  (some "CC-BY-3.0", "CC-BY-3.0"),
  (some "CC-BY-NC-1.0", "CC-BY-NC-1.0"),
  (some "CC-BY-NC-2.0", "CC-BY-NC-2.0"),
  (some "CC-BY-NC-2.5", "CC-BY-NC-2.5"),
  (some "CC-BY-NC-3.0", "CC-BY-NC-3.0"),
  (some "CC-BY-NC-ND-1.0", "CC-BY-NC-ND-1.0"),
  (some "CC-BY-NC-ND-2.0", "CC-BY-NC-ND-2.0"),
  (some "CC-BY-NC-ND-2.5", "CC-BY-NC-ND-2.5"),
  (some "CC-BY-NC-ND-3.0", "CC-BY-NC-ND-3.0"),
  (some "CC-BY-NC-SA-1.0", "CC-BY-NC-SA-1.0"),
  (some "CC-BY-NC-SA-2.0", "CC-BY-NC-SA-2.0"),
  (some "CC-BY-NC-SA-2.5", "CC-BY-NC-SA-2.5"),
  (some "CC-BY-NC-SA-3.0", "CC-BY-NC-SA-3.0"),
  (some "CC-BY-ND-1.0", "CC-BY-ND-1.0"),
  (some "CC-BY-ND-2.0", "CC-BY-ND-2.0"),
  (some "CC-BY-ND-2.5", "CC-BY-ND-2.5"),
  (some "CC-BY-ND-3.0", "CC-BY-ND-3.0"),
  (some "CC-BY-SA-1.0", "CC-BY-SA-1.0"),
  (some "CC-BY-SA-2.0", "CC-BY-SA-2.0"),
  (some "CC-BY-SA-2.5", "CC-BY-SA-2.5"),
  (some "CC-BY-SA-3.0", "CC-BY-SA-3.0"),
  (some "CC0-1.0", "CC0-1.0"),
  (some "CDDL-1.0", "CDDL-1.0"),
  (some "CECILL-1.0", "CECILL-1.0"),
  (some "CECILL-2.0", "CECILL-2.0"),
  (some "CECILL-B", "CECILL-B"),
  (some "CECILL-C", "CECILL-C"),
  (some "CPAL-1.0", "CPAL-1.0"),
  (some "CPL-1.0", "CPL-1.0"),
  (some "CUA-OPL-1.0", "CUA-OPL-1.0"),
  (some "ClArtistic", "ClArtistic"),
  (some "DSSSL", "DSSSL"),
  (some "Dual License", "BSD"),
  (some "ECL-1.0", "ECL-1.0"),
  (some "ECL-2.0", "ECL-2.0"),
  (some "EDL-1.0", "EDL-1.0"),
  (some "EFL-1.0", "EFL-1.0"),
  (some "EFL-2.0", "EFL-2.0"),
  (some "EPL-1.0", "EPL-1.0"),
  (some "EPL-2.0", "EPL-2.0"),
  (some "EUDatagrid", "EUDatagrid"),
  (some "EUPL-1.0", "EUPL-1.0"),
  (some "EUPL-1.1", "EUPL-1.1"),
  (some "Elfutils-Exception", "Elfutils-Exception"),
  (some "Entessa", "Entessa"),
  (some "ErlPL-1.1", "ErlPL-1.1"),
  (some "Expat license", "MIT"),
  (some "Expat (MIT/X11)", "MIT"),
  (some "Fair", "Fair"),
  (some "Frameworx-1.0", "Frameworx-1.0"),
  (some "FreeType", "FreeType"),
  (some "GFDL-1.1", "GFDL-1.1"),
  (some "GFDL-1.2", "GFDL-1.2"),
  (some "GFDL-1.3", "GFDL-1.3"),
  (some "GNU GPLv3+", "GPL-3.0"),
  (some "GNU General Public License Version 3", "GPL-3.0"),
  (some "GNU LGPL", "LGPL-2.0"),
  (some "GPL", "GPL-1.0"),
  (some "GPL V2 or later", "GPL-2.0"),
  (some "GPL-1.0", "GPL-1.0"),
  (some "GPL-2-with-bison-exception", "GPL-2-with-bison-exception"),
  (some "GPL-2.0", "GPL-2.0"),
  (some "GPL-2.0-with-GCC-exception", "GPL-2.0-with-GCC-exception"),
  (some "GPL-2.0-with-autoconf-exception", "GPL-2.0-with-autoconf-exception"),
  (some "GPL-2.0-with-classpath-exception", "GPL-2.0-with-classpath-exception"),
  (some "GPL-2.0-with-font-exception", "GPL-2.0-with-font-exception"),
  (some "GPL-3.0", "GPL-3.0"),
  (some "GPL-3.0-with-GCC-exception", "GPL-3.0-with-GCC-exception"),
  (some "GPL-3.0-with-autoconf-exception", "GPL-3.0-with-autoconf-exception"),
  (some "GPLv3+", "GPLv3"),
  (some "HPND", "HPND"),
  (some "IPA", "IPA"),
  (some "IPL-1.0", "IPL-1.0"),
  (some "ISC", "ISC"),
  (some "ISC license", "ISC"),
  (some "LGPL", "LGPL-2.0"),
  (some "LGPL-2.0", "LGPL-2.0"),
  (some "LGPL-2.1", "LGPL-2.1"),
  (some "LGPL-3.0", "LGPL-3.0"),
  (some "LGPLv2", "LGPL-2.0"),
  (some "LGPLv2+", "LGPL-2.0"),
  (some "LGPLv3", "LGPL-3.0"),
  (some "LPGL, see LICENSE file.", "LGPL-1.0"),
  (some "LPL-1.02", "LPL-1.02"),
  (some "LPPL-1.0", "LPPL-1.0"),
  (some "LPPL-1.1", "LPPL-1.1"),
  (some "LPPL-1.2", "LPPL-1.2"),
  (some "LPPL-1.3c", "LPPL-1.3c"),
  (some "Libpng", "Libpng"),
  (some "License :: OSI Approved :: Apache Software License", "Apache-2.0"),
  (some "License :: OSI Approved :: MIT License (http://opensource.org/licenses/MIT)", "MIT"),
  (some "License :: OSI Approved :: BSD License", "BSD"),
  (some "License :: OSI Approved :: MIT License", "MIT"),
  (some "License :: OSI Approved :: Python Software Foundation License", "Python-2.0"),
  (some "MIT", "MIT"),
  (some "MIT License", "MIT"),
  (some "MIT license", "MIT"),
  (some "MIT/X11", "MIT"),
  (some "MIT-CMU", "MIT-CMU"),
  (some "MPL v2", "MPL-2.0"),
  (some "MPL-1.0", "MPL-1.0"),
  (some "MPL-1.1", "MPL-1.1"),
  (some "MPL-2.0", "MPL-2.0"),
  (some "MPLv2.0, MIT Licences", "MIT"),
  (some "MS-PL", "MS-PL"),
  (some "MS-RL", "MS-RL"),
  (some "MirOS", "MirOS"),
  (some "Modified BSD License", "BSD"),
  (some "Motosoto", "Motosoto"),
  (some "Multics", "Multics"),
  (some "NASA-1.3", "NASA-1.3"),
  (some "NCSA", "NCSA"),
  (some "NGPL", "NGPL"),
  (some "NPOSL-3.0", "NPOSL-3.0"),
  (some "NTP", "NTP"),
  (some "Nauman", "Nauman"),
  (some "New BSD", "BSD"),
  (some "Nokia", "Nokia"),
  (some "OASIS", "OASIS"),
  (some "OCLC-2.0", "OCLC-2.0"),
  (some "ODbL-1.0", "ODbL-1.0"),
  (some "OFL-1.1", "OFL-1.1"),
  (some "OGTSL", "OGTSL"),
  (some "OLDAP-2.8", "OLDAP-2.8"),
  (some "OSL-1.0", "OSL-1.0"),
  (some "OSL-2.0", "OSL-2.0"),
  (some "OSL-3.0", "OSL-3.0"),
  (some "OpenSSL", "OpenSSL"),
  (some "PD", "PD"),
  (some "PHP-3.0", "PHP-3.0"),
  (some "PSF", "Python-2.0"),
  (some "PSF License", "Python-2.0"),
  (some "PSF license", "Python-2.0"),
  (some "PSFL", "Python-2.0"),
  (some "PostgreSQL", "PostgreSQL"),
  (some "Proprietary", "Proprietary"),
  (some "Public Domain", "PD"),
  (some "Public domain", "PD"),
  (some "Python Software Foundation License", "Python-2.0"),
  (some "Python style", "Python-2.0"),
  (some "Python-2.0", "Python-2.0"),
  (some "QPL-1.0", "QPL-1.0"),
  (some "RHeCos-1", "RHeCos-1"),
  (some "RHeCos-1.1", "RHeCos-1.1"),
  (some "RPL-1.5", "RPL-1.5"),
  (some "RPSL-1.0", "RPSL-1.0"),
  (some "RSCPL", "RSCPL"),
  (some "Ruby", "Ruby"),
  (some "SAX-PD", "SAX-PD"),
  (some "SGI-1", "SGI-1"),
  (some "SPL-1.0", "SPL-1.0"),
  (some "Simple-2.0", "Simple-2.0"),
  (some "Sleepycat", "Sleepycat"),
  (some "SugarCRM-1", "SugarCRM-1"),
  (some "SugarCRM-1.1.3", "SugarCRM-1.1.3"),
  (some "This software released into the public domain. Anyone is free to copy,", "PD"),
  (some "Two-clause BSD license", "BSD-2-Clause"),
  (some "UCB", "UCB"),
  (some "UNKNOWN", "CLOSED"),
  (some "VSL-1.0", "VSL-1.0"),
  (some "W3C", "W3C"),
  (some "WXwindows", "WXwindows"),
  (some "Watcom-1.0", "Watcom-1.0"),
  (some "XFree86-1.0", "XFree86-1.0"),
  (some "XFree86-1.1", "XFree86-1.1"),
  (some "XSL", "XSL"),
  (some "Xnet", "Xnet"),
  (some "YPL-1.1", "YPL-1.1"),
  (some "ZPL 2.1", "ZPL-2.0"),
  (some "ZPL-1.1", "ZPL-1.1"),
  (some "ZPL-2.0", "ZPL-2.0"),
  (some "ZPL-2.1", "ZPL-2.1"),
  (some "Zimbra-1.3", "Zimbra-1.3"),
  (some "Zlib", "Zlib"),
  (some "eCos-2.0", "eCos-2.0"),
  (some "gSOAP-1", "gSOAP-1"),
  (some "gSOAP-1.3b", "gSOAP-1.3b"),
  (some "http://creativecommons.org/publicdomain/zero/1.0/", "PD"),
  (some "http://opensource.org/licenses/MIT", "MIT"),
  (some "public domain, Python, 2-Clause BSD, GPL 3 (see COPYING.txt)", "PD"),
]

/-! ### Section 3: wildcard version selection (`get_package_info`,
pipoe.py:426-445) -/

/-- The inner positional-match loop (pipoe.py:437-442): walk the pattern
segments; a `"*"` segment stops the scan with a match; a mismatching segment
stops it without one; indexing `tv[j[0]]` past the end of the candidate's
segments raises `IndexError`, modelled as `Except.error ()`. -/
def wMatch : List (List Char) → List (List Char) → Except Unit Bool
  | [], _ => .ok true
  | p :: ps, tv =>
    if p = ['*'] then .ok true
    else
      match tv with
      | [] => .error ()
      | t :: ts => if p = t then wMatch ps ts else .ok false

/-- The `pv` accumulation loop (pipoe.py:434-444) over the registry's release
keys in enumeration order; an `IndexError` inside any iteration aborts the
whole scan. -/
def collectMatches (v : List (List Char)) : List String → Except Unit (List String)
  | [] => .ok []
  | r :: rs =>
    match wMatch v (splitChar '.' r.toList) with
    | .error e => .error e
    | .ok b =>
      match collectMatches v rs with
      | .error e => .error e
      | .ok rest => .ok (if b then r :: rest else rest)

/-- The whole wildcard resolution (pipoe.py:431-445): filter the release keys
with the positional loop and take `pv[-1]`; `pv[-1]` on an empty `pv` raises
`IndexError`. -/
def wildcard_select (releases : List String) (version : String) : Except Unit String :=
  match collectMatches (splitChar '.' version.toList) releases with
  | .error e => .error e
  | .ok pv =>
    match pv.getLast? with
    | some x => .ok x
    | none => .error ()

/-- The pattern's dot-segments strictly before its first `"*"` segment. -/
def preWildcardSegs (version : String) : List (List Char) :=
  (splitChar '.' version.toList).takeWhile (fun p => p ≠ ['*'])

/-- Spec-style description of what the loop actually checks: the candidate
matches iff the pattern's segments before the first wildcard are a positional
prefix of the candidate's segments. -/
def matchesBeforeFirstWildcard (version r : String) : Bool :=
  (preWildcardSegs version).isPrefixOf (splitChar '.' r.toList)

/-! ### Section 4: the resolution engine (`get_package_info`,
pipoe.py:345-531; `check_package_already_processed`, pipoe.py:378-389;
`parse_requirements`, pipoe.py:590-618; `parse_existing_packages`,
pipoe.py:680-697)

External collaborators are collapsed into oracles, one per effectful call
site of the source, each returning `Except String` to model the exceptions
those calls can raise (`urllib`/JSON errors, the "No sdist package can be
found." raise at pipoe.py:479, errors inside `get_package_file_info`, and
errors inside `fetch_requirements_from_remote_package`).  The pep508 parsing
of dependency specifiers (`parse_requires_dist`) is an external library call;
its already-parsed output is what the oracles return. -/

/-- The `Dependency` namedtuple (pipoe.py:100). -/
structure Dependency where
  name : String
  version : Option String
  extra : Option String
deriving DecidableEq

/-- The `Package` namedtuple (pipoe.py:79-98).  `version` is optional because
`parse_existing_packages` seeds packages whose version is Python `None`. -/
structure Package where
  name : String
  version : Option String
  summary : String
  homepage : String
  author : String
  author_email : String
  license : String
  license_file : String
  license_md5 : String
  src_dir : String
  src_uri : String
  src_md5 : String
  src_sha256 : String
  dependencies : List Dependency
  build_dependencies : List String
deriving DecidableEq

/-- The fields `get_package_info` reads from the registry's JSON document
(`info["info"]`, pipoe.py:455-464 and 486-490).  `requires_dist := none`
models the registry inconsistency that triggers the
`fetch_requirements_from_remote_package` fallback. -/
structure PkgMeta where
  version : String
  summary : String
  homepage : String
  author : String
  author_email : String
  license : Option String
  classifiers : List String
  requires_dist : Option (List Dependency)
deriving DecidableEq

/-- The tuple returned by `get_package_file_info` (pipoe.py:250). -/
structure FileInfo where
  src_md5 : String
  src_sha256 : String
  src_dir : String
  license_file : String
  license_md5 : String
  build_deps : List String
deriving DecidableEq

/-- One line printed by the engine: the per-request progress line
(pipoe.py:419-423), the version-conflict warning (pipoe.py:386-387), or the
per-request failure report (pipoe.py:527-529).  The recursion depth is
carried as the `indent` argument that the source renders into `indent_str`. -/
inductive LogEntry where
  | progress (indent : Nat) (package : String) (extra : Option String) (version : Option String)
  | warning (package_name : String) (requested : Option String) (found : Option String)
  | failure (indent : Nat) (package : String) (msg : String)
deriving DecidableEq

/-- The process-global mutable state of a run: `PROCESSED_PACKAGES`
(pipoe.py:345), `licenses.LICENSES`, and everything printed so far. -/
structure EngineState where
  processed : List Package
  table : LTable
  logs : List LogEntry
deriving DecidableEq

/-- The external world: one oracle per effectful call site of
`get_package_info`, plus the operator's answer to the `input()` prompt of
`translate_license`. -/
structure World where
  meta : String → Option String → Except String PkgMeta
  releases : String → Except String (List String)
  sdist : String → Option String → Except String String
  introspect : String → String → String → Except String FileInfo
  fallbackDeps : String → String → Except String (List Dependency)
  opInput : String

/-- Python truthiness of an optional string: `None` and `""` are falsy. -/
def pyTruthyS : Option String → Bool
  | none => false
  | some s => s ≠ ""

/-- Embedding of `get_package_dependencies` (pipoe.py:332-342) on the parsed
specifier list: a dependency with a truthy extra is dropped unless
`follow_extras` is set. -/
def get_package_dependencies (requires_dist : List Dependency) (follow_extras : Bool) : List Dependency :=
  requires_dist.filter fun d => !(pyTruthyS d.extra && !follow_extras)

/-- `package.split('[')[0]` (pipoe.py:403). -/
def firstBracketSegment (package : String) : String :=
  String.mk ((splitChar (Char.ofNat 91) package.toList).headD [])

/-- The loop of `check_package_already_processed` (pipoe.py:381-389): walk
`processed_packages + packages[0]`; on a matching name, a comparator result
other than 1 returns `True`; a result of 1 prints the version-conflict
warning and keeps scanning; an exception inside `compare_versions`
propagates. -/
def checkLoop (package_name : String) (version : Option String) :
    List Package → List LogEntry → Except Unit (Bool × List LogEntry)
  | [], logs => .ok (false, logs)
  | p :: rest, logs =>
    if package_name = p.name then
      match compare_versions_py version p.version with
      | .error e => .error e
      | .ok r =>
        if r ≠ 1 then .ok (true, logs)
        else checkLoop package_name version rest (logs ++ [.warning package_name version p.version])
    else checkLoop package_name version rest logs

/-- Embedding of `check_package_already_processed` (pipoe.py:378-389). -/
def check_package_already_processed (package_name : String) (version : Option String)
    (processed_packages packages0 : List Package) : Except Unit (Bool × List LogEntry) :=
  checkLoop package_name version (processed_packages ++ packages0) []

/-- The version-conflict warnings the loop prints on a full scan in which
every matching entry compares strictly older than the request. -/
def warnsOf (package_name : String) (version : Option String) (l : List Package) : List LogEntry :=
  l.filterMap fun p =>
    if package_name = p.name then some (.warning package_name version p.version) else none

/-- `summary.replace('\n', ' \\\n')` (pipoe.py:458). -/
def escapeNewlines (s : String) : String :=
  String.mk (s.toList.foldr
    (fun c acc => if c = Char.ofNat 10 then Char.ofNat 32 :: Char.ofNat 92 :: Char.ofNat 10 :: acc else c :: acc) [])

/-- The `Package` record built at pipoe.py:494-510. -/
def mkResolvedPackage (package_name concrete : String) (info : PkgMeta) (lic : String)
    (src_uri : String) (fi : FileInfo) (deps : List Dependency) : Package :=
  { name := package_name
    version := some concrete
    summary := escapeNewlines info.summary
    homepage := info.homepage
    author := info.author
    author_email := info.author_email
    license := lic
    license_file := fi.license_file
    license_md5 := fi.license_md5
    src_dir := fi.src_dir
    src_uri := src_uri
    src_md5 := fi.src_md5
    src_sha256 := fi.src_sha256
    dependencies := deps
    build_dependencies := fi.build_deps }

/-- The dependency loop (pipoe.py:515-524): each declared dependency spawns a
recursive request against the shared result list; an exception escaping a
child call (only the `TypeError`/`AttributeError` of the child's skip check
can do so) aborts the loop and is caught by this request's handler. -/
def depWalk
    (recur : String → Option String → Option (List Package) → Option String → EngineState →
      Except Unit (List Package × EngineState)) :
    List Dependency → List Package → EngineState → List Package × EngineState × Except String Unit
  | [], lst, st => (lst, st, .ok ())
  | d :: ds, lst, st =>
    match recur d.name d.version (some lst) d.extra st with
    | .error _ => (lst, st, .error "TypeError")
    | .ok (l2, s2) => depWalk recur ds l2 s2

/-- The version block at the head of the `try` (pipoe.py:426-450): a falsy
version stays unresolved (the name-only URL is used); a version containing a
`'*'` goes through the registry's release keys and `wildcard_select`. -/
def resolveWildcard (w : World) (package_name : String) (version : Option String) :
    Except String (Option String) :=
  match version with
  | none => .ok none
  | some v =>
    if v = "" then .ok none
    else if v.toList.contains '*' then
      match w.releases package_name with
      | .error msg => .error msg
      | .ok rels =>
        match wildcard_select rels v with
        | .error _ => .error "IndexError"
        | .ok v2 => .ok (some v2)
    else .ok (some v)

/-- `if not version: version = info["info"]["version"]` (pipoe.py:456-457). -/
def concreteVersion (v1 : Option String) (info : PkgMeta) : String :=
  match v1 with
  | none => info.version
  | some v => if v = "" then info.version else v

/-- `requires_dist` with the remote-package fallback (pipoe.py:486-490). -/
def requiresDistOf (w : World) (package_name concrete : String) (info : PkgMeta) :
    Except String (List Dependency) :=
  match info.requires_dist with
  | some rd => .ok rd
  | none => w.fallbackDeps package_name concrete

/-- The body of the `try` block of `get_package_info` (pipoe.py:425-524):
wildcard resolution, metadata fetch, concrete-version decision, license
normalization, sdist selection, artifact introspection, `requires_dist`
fallback, package construction and append, then the dependency walk.  The
result carries the state as mutated so far (in-place mutations survive the
`except`) and whether an exception reached the handler. -/
def tryBody (w : World)
    (recur : String → Option String → Option (List Package) → Option String → EngineState →
      Except Unit (List Package × EngineState))
    (package_name : String) (version : Option String) (follow_extras : Bool)
    (default_license : Option String) (lst : List Package) (st : EngineState) :
    List Package × EngineState × Except String Unit :=
  match resolveWildcard w package_name version with
  | .error msg => (lst, st, .error msg)
  | .ok v1 =>
    match w.meta package_name v1 with
    | .error msg => (lst, st, .error msg)
    | .ok info =>
      let concrete := concreteVersion v1 info
      let tl := translate_license st.table info.license info.classifiers default_license w.opInput
      let st1 : EngineState := { st with table := tl.2 }
      match w.sdist package_name v1 with
      | .error msg => (lst, st1, .error msg)
      | .ok src_uri =>
        match w.introspect package_name concrete src_uri with
        | .error msg => (lst, st1, .error msg)
        | .ok fi =>
          match requiresDistOf w package_name concrete info with
          | .error msg => (lst, st1, .error msg)
          | .ok rd =>
            let deps := get_package_dependencies rd follow_extras
            let pkg := mkResolvedPackage package_name concrete info tl.1 src_uri fi deps
            depWalk recur deps (lst ++ [pkg]) { st1 with processed := st1.processed ++ [pkg] }

/-- One request after the skip check: the progress line (pipoe.py:419-423),
the `try` body, and the `except` handler that reports the failure with the
request's package and indent and lets the run continue (pipoe.py:526-529). -/
def resolveStep (w : World)
    (recur : String → Option String → Option (List Package) → Option String → EngineState →
      Except Unit (List Package × EngineState))
    (package package_name : String) (version : Option String) (indent : Nat)
    (extra : Option String) (follow_extras : Bool) (default_license : Option String)
    (lst : List Package) (st : EngineState) : Except Unit (List Package × EngineState) :=
  let st1 : EngineState := { st with logs := st.logs ++ [.progress indent package extra version] }
  match tryBody w recur package_name version follow_extras default_license lst st1 with
  | (l2, s2, .ok _) => .ok (l2, s2)
  | (l2, s2, .error msg) => .ok (l2, { s2 with logs := s2.logs ++ [.failure indent package msg] })

/-- Embedding of `get_package_info` (pipoe.py:392-531).  `packages = none`
models a root call (Python `packages=None`, falsy), `some lst` a recursive
call sharing the accumulated result list.  Recursion is fuelled; exhausted
fuel returns the list unchanged (the source recurses unboundedly; every
theorem below supplies enough fuel).  The only way the function itself raises
is an exception inside the skip check, which runs outside the `try` block. -/
def get_package_info (w : World) :
    Nat → String → Option String → Option (List Package) → Nat → Option String → Bool →
      Option String → EngineState → Except Unit (List Package × EngineState)
  | 0, _, _, packages, _, _, _, _, st => .ok (packages.getD [], st)
  | fuel + 1, package, version, packages, indent, extra, follow_extras, default_license, st =>
    match packages with
    | none =>
      resolveStep w
        (fun nm vr pks ex s => get_package_info w fuel nm vr pks (indent + 2) ex follow_extras default_license s)
        package (firstBracketSegment package) version indent extra follow_extras default_license [] st
    | some lst =>
      match check_package_already_processed (firstBracketSegment package) version st.processed lst with
      | .error e => .error e
      | .ok (true, ws) => .ok (lst, { st with logs := st.logs ++ ws })
      | .ok (false, ws) =>
        resolveStep w
          (fun nm vr pks ex s => get_package_info w fuel nm vr pks (indent + 2) ex follow_extras default_license s)
          package (firstBracketSegment package) version indent extra follow_extras default_license lst
          { st with logs := st.logs ++ ws }

/-- A fresh run state: optionally pre-seeded `PROCESSED_PACKAGES` and the
license table. -/
def initState (processed : List Package) (tbl : LTable) : EngineState :=
  { processed := processed, table := tbl, logs := [] }

/-- A whole run over a list of root requests, as `main`/`parse_requirements`
perform it (pipoe.py:590-618, 766-779): each root is a `packages=None` call
and the returned lists are concatenated.  A root call never returns an
exception (proved below); the error arm is dead code needed only for
totality. -/
def resolve_roots (w : World) (fuel : Nat) (roots : List (String × Option String))
    (follow_extras : Bool) (default_license : Option String) (st : EngineState) :
    List Package × EngineState :=
  roots.foldl
    (fun acc r =>
      match get_package_info w fuel r.1 r.2 none 0 none follow_extras default_license acc.2 with
      | .ok (lst, st2) => (acc.1 ++ lst, st2)
      | .error _ => acc)
    ([], st)

/-- Python `line.split("==")` (pipoe.py:685-686). -/
def splitOnEqEq : List Char → List (List Char)
  | [] => [[]]
  | '=' :: '=' :: rest => [] :: splitOnEqEq rest
  | c :: rest =>
    match splitOnEqEq rest with
    | h :: t => (c :: h) :: t
    | [] => [[c]]

/-- Python `str.strip()` with no argument: strip surrounding whitespace. -/
def pyStrip (s : String) : String :=
  String.mk (((s.toList.dropWhile Char.isWhitespace).reverse.dropWhile Char.isWhitespace).reverse)

/-- The all-`nope` `Package` built by `parse_existing_packages`
(pipoe.py:691-696). -/
def mkNopePackage (name : String) (version : Option String) : Package :=
  { name := name, version := version, summary := "", homepage := "", author := "",
    author_email := "", license := "", license_file := "", license_md5 := "",
    src_dir := "", src_uri := "", src_md5 := "", src_sha256 := "",
    dependencies := [], build_dependencies := [] }

/-- Embedding of `parse_existing_packages` (pipoe.py:680-697) on the lines of
the existing-packages file: every line (even an empty one) appends one seed
package; a line containing `"=="` is split into name and version. -/
def parse_existing_packages (lines : List String) : List Package :=
  lines.map fun line0 =>
    let line := pyStrip line0
    let ps := splitOnEqEq line.toList
    if ps.length > 1 then
      mkNopePackage (String.mk (ps.headD [])) (some (String.mk (ps.getD 1 [])))
    else
      mkNopePackage line none

/-! ### Concrete worlds used by the scenario theorems -/

/-- Introspection result used by all scenario worlds. -/
def fi0 : FileInfo :=
  { src_md5 := "m5", src_sha256 := "s256", src_dir := "srcdir",
    license_file := "LICENSE", license_md5 := "lm5", build_deps := [] }

/-- Registry metadata with no dependencies, license `MIT`. -/
def metaNoDeps (ver : String) : PkgMeta :=
  { version := ver, summary := "", homepage := "", author := "", author_email := "",
    license := some "MIT", classifiers := [], requires_dist := some [] }

/-- Registry metadata with the given dependency list, license `MIT`. -/
def metaWithDeps (ver : String) (deps : List Dependency) : PkgMeta :=
  { metaNoDeps ver with requires_dist := some deps }

/-- A one-entry license table so scenario runs hit the declared-string path. -/
def smallTable : LTable := [(some "MIT", "MIT")]

/-- World for the C1 scenario: `foo` exists at 1.0 and 2.0; `A`'s latest is
0.5 and depends on `foo==2.0`. -/
def worldC1 : World :=
  { meta := fun name ver =>
      match name, ver with
      | "foo", some "1.0" => .ok (metaNoDeps "1.0")
      | "foo", some "2.0" => .ok (metaNoDeps "2.0")
      | "A", none => .ok (metaWithDeps "0.5" [⟨"foo", some "2.0", none⟩])
      | _, _ => .error "404"
    releases := fun _ => .error "unused"
    sdist := fun _ _ => .ok "https://files/pkg.tar.gz"
    introspect := fun _ _ _ => .ok fi0
    fallbackDeps := fun _ _ => .error "unused"
    opInput := "PROMPTED" }

/-- The C1 run: roots `foo==1.0` then `A`. -/
def runC1 : List Package × EngineState :=
  resolve_roots worldC1 4 [("foo", some "1.0"), ("A", none)] false none (initState [] smallTable)

/-- World for the C2 scenario: `A` depends on `B` and `C`; querying `B`
fails; `C` resolves. -/
def worldC2 : World :=
  { worldC1 with meta := fun name ver =>
      match name, ver with
      | "A", none => .ok (metaWithDeps "1.0" [⟨"B", some "1.0", none⟩, ⟨"C", some "1.0", none⟩])
      | "B", some "1.0" => .error "boom"
      | "C", some "1.0" => .ok (metaNoDeps "1.0")
      | _, _ => .error "404" }

/-- The C2 run: root `A`. -/
def runC2 : List Package × EngineState :=
  resolve_roots worldC2 4 [("A", none)] false none (initState [] smallTable)

/-- World for the C9 scenario: `D` is a shared transitive dependency of the
siblings `B` and `C`. -/
def worldC9 : World :=
  { worldC1 with meta := fun name ver =>
      match name, ver with
      | "A", none => .ok (metaWithDeps "1.0" [⟨"B", some "1.0", none⟩, ⟨"C", some "1.0", none⟩])
      | "B", some "1.0" => .ok (metaWithDeps "1.0" [⟨"D", some "1.0", none⟩])
      | "C", some "1.0" => .ok (metaWithDeps "1.0" [⟨"D", some "1.0", none⟩])
      | "D", some "1.0" => .ok (metaNoDeps "1.0")
      | _, _ => .error "404" }

/-- The C9 run: root `A`. -/
def runC9 : List Package × EngineState :=
  resolve_roots worldC9 4 [("A", none)] false none (initState [] smallTable)

/-- World for the C10 scenario: `D` resolvable at 1.0; `A` depends on
`D==1.0`. -/
def worldC10 : World :=
  { worldC1 with meta := fun name ver =>
      match name, ver with
      | "D", some "1.0" => .ok (metaNoDeps "1.0")
      | "A", none => .ok (metaWithDeps "1.0" [⟨"D", some "1.0", none⟩])
      | _, _ => .error "404" }

/-- `PROCESSED_PACKAGES` pre-seeded from an existing-packages file containing
the single line `D==1.0`. -/
def preseedD : List Package := parse_existing_packages ["D==1.0"]

/-- The C10 run with root `D==1.0` against the pre-seeded set. -/
def runC10root : List Package × EngineState :=
  resolve_roots worldC10 4 [("D", some "1.0")] false none (initState preseedD smallTable)

/-- The C10 run with root `A` against the pre-seeded set. -/
def runC10dep : List Package × EngineState :=
  resolve_roots worldC10 4 [("A", none)] false none (initState preseedD smallTable)

/-- The recursion supplied to `depWalk` only ever appends to the shared
result list; this is the induction hypothesis threaded through the fuelled
recursion of `get_package_info`. -/
def RecurExtends (recur : String → Option String → Option (List Package) → Option String →
    EngineState → Except Unit (List Package × EngineState)) : Prop :=
  ∀ nm vr l ex s l2 s2, recur nm vr (some l) ex s = .ok (l2, s2) → ∃ e, l2 = l ++ e


/-! ### Lemmas on the comparator -/

theorem cmpParts_self (l : List VPart) : cmpParts l l = .ok 0 := by
  induction l with
  | nil => rfl
  | cons a t ih => simp [cmpParts, ih]

theorem cmpParts_overlapL (l e : List VPart) : cmpParts l (l ++ e) = .ok 0 := by
  induction l with
  | nil => cases e <;> rfl
  | cons a t ih => simp [cmpParts, ih]

theorem cmpParts_overlapR (l e : List VPart) : cmpParts (l ++ e) l = .ok 0 := by
  induction l with
  | nil => cases e <;> rfl
  | cons a t ih => simp [cmpParts, ih]

theorem pyStrLt_antisym : ∀ as_ bs : List Char, as_ ≠ bs →
    pyStrLt bs as_ = !pyStrLt as_ bs := by
  intro as_
  induction as_ with
  | nil =>
    intro bs h
    cases bs with
    | nil => exact absurd rfl h
    | cons b t => rfl
  | cons a t ih =>
    intro bs h
    cases bs with
    | nil => rfl
    | cons b u =>
      by_cases hab : a = b
      · subst hab
        have ht : t ≠ u := fun he => h (by rw [he])
        simp [pyStrLt, ih u ht]
      · rcases lt_trichotomy a b with hlt | heq | hgt
        · simp [pyStrLt, hab, Ne.symm hab, hlt, not_lt_of_gt hlt]
        · exact absurd heq hab
        · simp [pyStrLt, hab, Ne.symm hab, hgt, not_lt_of_gt hgt]

theorem cmpParts_antisym : ∀ l1 l2 : List VPart,
    cmpParts l2 l1 = (cmpParts l1 l2).map (fun r => -r) := by
  intro l1
  induction l1 with
  | nil =>
    intro l2
    cases l2 <;> simp [cmpParts, Except.map]
  | cons a as_ ih =>
    intro l2
    cases l2 with
    | nil => simp [cmpParts, Except.map]
    | cons b bs =>
      by_cases hab : a = b
      · subst hab
        simp [cmpParts, ih bs]
      · have hba : b ≠ a := Ne.symm hab
        cases a with
        | num x =>
          cases b with
          | num y =>
            have hxy : x ≠ y := fun he => hab (by rw [he])
            rcases Nat.lt_trichotomy x y with hlt | heq | hgt
            · simp [cmpParts, hab, hba, hlt, Nat.not_lt_of_lt hlt, Except.map]
            · exact absurd heq hxy
            · simp [cmpParts, hab, hba, hgt, Nat.not_lt_of_lt hgt, Except.map]
          | str y => simp [cmpParts, hab, hba, Except.map]
        | str x =>
          cases b with
          | num y => simp [cmpParts, hab, hba, Except.map]
          | str y =>
            have hxy : x ≠ y := fun he => hab (by rw [he])
            have := pyStrLt_antisym x y hxy
            cases hpy : pyStrLt x y <;>
              simp [cmpParts, hab, hba, this, hpy, Except.map]

theorem cmpParts_total : ∀ l1 l2 : List VPart,
    (l1.zip l2).all (fun pq => sameKind pq.1 pq.2) = true →
    ∃ r, cmpParts l1 l2 = .ok r ∧ (r = -1 ∨ r = 0 ∨ r = 1) := by
  intro l1
  induction l1 with
  | nil =>
    intro l2 _
    cases l2 <;> exact ⟨0, rfl, Or.inr (Or.inl rfl)⟩
  | cons a as_ ih =>
    intro l2 h
    cases l2 with
    | nil => exact ⟨0, rfl, Or.inr (Or.inl rfl)⟩
    | cons b bs =>
      simp only [List.zip_cons_cons, List.all_cons, Bool.and_eq_true] at h
      by_cases hab : a = b
      · subst hab
        simpa [cmpParts] using ih bs h.2
      · cases a with
        | num x =>
          cases b with
          | num y =>
            by_cases hlt : x < y
            · exact ⟨-1, by simp [cmpParts, hab, hlt], Or.inl rfl⟩
            · exact ⟨1, by simp [cmpParts, hab, hlt], Or.inr (Or.inr rfl)⟩
          | str y => simp [sameKind] at h
        | str x =>
          cases b with
          | num y => simp [sameKind] at h
          | str y =>
            by_cases hlt : pyStrLt x y = true
            · exact ⟨-1, by simp [cmpParts, hab, hlt], Or.inl rfl⟩
            · refine ⟨1, ?_, Or.inr (Or.inr rfl)⟩
              simp only [Bool.not_eq_true] at hlt
              simp [cmpParts, hab, hlt]

/-! ### Lemmas on the license normalizer -/

theorem lookupL_insertL (tbl : LTable) (k : Option String) (v : String) :
    lookupL (insertL tbl k v) k = some v := by
  induction tbl with
  | nil => simp [insertL, lookupL]
  | cons e rest ih =>
    by_cases h : e.1 = k
    · simp [insertL, lookupL, h]
    · simp [insertL, lookupL, h, ih]

/-! ### Lemmas on wildcard selection -/

theorem wMatch_eq : ∀ ps tv : List (List Char),
    (ps.takeWhile (fun p => p ≠ [Char.ofNat 42])).length ≤ tv.length →
    wMatch ps tv = .ok ((ps.takeWhile (fun p => p ≠ [Char.ofNat 42])).isPrefixOf tv) := by
  intro ps
  induction ps with
  | nil => intro tv _; simp [wMatch, List.takeWhile, List.isPrefixOf]
  | cons p ps ih =>
    intro tv h
    by_cases hstar : p = [Char.ofNat 42]
    · simp [wMatch, hstar, List.takeWhile, List.isPrefixOf]
    · rw [List.takeWhile_cons_of_pos (by simpa using hstar)] at h ⊢
      cases tv with
      | nil => simp at h
      | cons t ts =>
        by_cases hpt : p = t
        · subst hpt
          simp only [List.length_cons, Nat.add_le_add_iff_right] at h
          simp [wMatch, hstar, List.isPrefixOf, ih ts h]
        · simp [wMatch, hstar, hpt, List.isPrefixOf, beq_eq_false_iff_ne]

theorem collectMatches_eq (version : String) : ∀ rels : List String,
    (∀ r ∈ rels, (preWildcardSegs version).length ≤ (splitChar '.' r.toList).length) →
    collectMatches (splitChar '.' version.toList) rels =
      .ok (rels.filter (fun r => matchesBeforeFirstWildcard version r)) := by
  intro rels
  induction rels with
  | nil => intro _; rfl
  | cons r rs ih =>
    intro h
    have hr := h r (List.mem_cons_self r rs)
    have hw := wMatch_eq (splitChar '.' version.toList) (splitChar '.' r.toList)
      (by simpa [preWildcardSegs] using hr)
    have hrest := ih (fun x hx => h x (List.mem_cons_of_mem r hx))
    simp only [collectMatches, hw, hrest]
    simp only [matchesBeforeFirstWildcard, preWildcardSegs, List.filter_cons]

/-! ### Lemmas on the resolution engine -/

theorem resolveStep_ok (w : World) (recur) (package package_name : String)
    (version : Option String) (indent : Nat) (extra : Option String) (fe : Bool)
    (dl : Option String) (lst : List Package) (st : EngineState) :
    ∃ p, resolveStep w recur package package_name version indent extra fe dl lst st = .ok p := by
  rcases htb : tryBody w recur package_name version fe dl lst
      ({ st with logs := st.logs ++ [LogEntry.progress indent package extra version] }) with
    ⟨l2, s2, e⟩
  cases e with
  | ok u => exact ⟨(l2, s2), by simp [resolveStep, htb]⟩
  | error msg =>
    exact ⟨(l2, { s2 with logs := s2.logs ++ [LogEntry.failure indent package msg] }),
      by simp [resolveStep, htb]⟩

theorem get_package_info_root_ok (fuel : Nat) (w : World) (package : String)
    (version : Option String) (indent : Nat) (extra : Option String) (fe : Bool)
    (dl : Option String) (st : EngineState) :
    ∃ p, get_package_info w fuel package version none indent extra fe dl st = .ok p := by
  cases fuel with
  | zero => exact ⟨_, rfl⟩
  | succ fuel =>
    simp only [get_package_info]
    exact resolveStep_ok ..

theorem checkLoop_skips (package_name : String) (version : Option String) :
    ∀ (l : List Package) (logs : List LogEntry),
    (∀ p ∈ l, package_name = p.name → ∃ r, compare_versions_py version p.version = .ok r) →
    (∃ p ∈ l, package_name = p.name ∧ ∃ r, compare_versions_py version p.version = .ok r ∧ r ≠ 1) →
    ∃ ws, checkLoop package_name version l logs = .ok (true, ws) := by
  intro l
  induction l with
  | nil =>
    intro logs _ h2
    rcases h2 with ⟨p, hp, _⟩
    exact absurd hp (List.not_mem_nil p)
  | cons p rest ih =>
    intro logs h1 h2
    by_cases hn : package_name = p.name
    · subst hn
      obtain ⟨r, hr⟩ := h1 p (List.mem_cons_self p rest) rfl
      by_cases hr1 : r = 1
      · subst hr1
        have h2x : ∃ q ∈ rest, p.name = q.name ∧
            ∃ s, compare_versions_py version q.version = .ok s ∧ s ≠ 1 := by
          rcases h2 with ⟨q, hq, hqn, s, hs, hs1⟩
          rcases List.mem_cons.mp hq with hqp | hqr
          · subst hqp
            rw [hr] at hs
            exact absurd (by injection hs) (Ne.symm hs1)
          · exact ⟨q, hqr, hqn, s, hs, hs1⟩
        obtain ⟨ws, hws⟩ := ih (logs ++ [LogEntry.warning p.name version p.version])
          (fun q hq hqn => h1 q (List.mem_cons_of_mem p hq) hqn) h2x
        exact ⟨ws, by simp [checkLoop, hr, hws]⟩
      · exact ⟨logs, by simp [checkLoop, hr, hr1]⟩
    · have h2x : ∃ q ∈ rest, package_name = q.name ∧
          ∃ s, compare_versions_py version q.version = .ok s ∧ s ≠ 1 := by
        rcases h2 with ⟨q, hq, hqn, s, hs, hs1⟩
        rcases List.mem_cons.mp hq with hqp | hqr
        · subst hqp; exact absurd hqn hn
        · exact ⟨q, hqr, hqn, s, hs, hs1⟩
      obtain ⟨ws, hws⟩ := ih logs (fun q hq hqn => h1 q (List.mem_cons_of_mem p hq) hqn) h2x
      exact ⟨ws, by simp [checkLoop, hn, hws]⟩

theorem checkLoop_all_newer (package_name : String) (version : Option String) :
    ∀ (l : List Package) (logs : List LogEntry),
    (∀ p ∈ l, package_name = p.name → compare_versions_py version p.version = .ok 1) →
    checkLoop package_name version l logs = .ok (false, logs ++ warnsOf package_name version l) := by
  intro l
  induction l with
  | nil => intro logs _; simp [checkLoop, warnsOf]
  | cons p rest ih =>
    intro logs h
    by_cases hn : package_name = p.name
    · subst hn
      have hr := h p (List.mem_cons_self p rest) rfl
      have hrec := ih (logs ++ [LogEntry.warning p.name version p.version])
        (fun q hq => h q (List.mem_cons_of_mem p hq))
      simp [checkLoop, hr, hrec, warnsOf, List.filterMap_cons, List.append_assoc]
    · have hrec := ih logs (fun q hq => h q (List.mem_cons_of_mem p hq))
      simp [checkLoop, hn, hrec, warnsOf, List.filterMap_cons]

theorem depWalk_extends (recur) (hrec : RecurExtends recur) :
    ∀ (deps : List Dependency) (lst : List Package) (st : EngineState),
    ∃ e, (depWalk recur deps lst st).1 = lst ++ e := by
  intro deps
  induction deps with
  | nil => intro lst st; exact ⟨[], by simp [depWalk]⟩
  | cons d ds ih =>
    intro lst st
    rcases hc : recur d.name d.version (some lst) d.extra st with msg | ⟨l2, s2⟩
    · exact ⟨[], by simp [depWalk, hc]⟩
    · obtain ⟨e1, he1⟩ := hrec _ _ _ _ _ _ _ hc
      obtain ⟨e2, he2⟩ := ih l2 s2
      have h3 : (depWalk recur ds l2 s2).1 = lst ++ (e1 ++ e2) := by
        rw [he2, he1, List.append_assoc]
      exact ⟨e1 ++ e2, by simp [depWalk, hc, h3]⟩

theorem tryBody_success (w : World) (recur) (package_name : String) (version : Option String)
    (fe : Bool) (dl : Option String) (lst : List Package) (st : EngineState)
    (v1 : Option String) (info : PkgMeta) (src_uri : String) (fi : FileInfo)
    (rd : List Dependency)
    (hv : resolveWildcard w package_name version = .ok v1)
    (hm : w.meta package_name v1 = .ok info)
    (hs : w.sdist package_name v1 = .ok src_uri)
    (hi : w.introspect package_name (concreteVersion v1 info) src_uri = .ok fi)
    (hr : requiresDistOf w package_name (concreteVersion v1 info) info = .ok rd) :
    tryBody w recur package_name version fe dl lst st =
      depWalk recur (get_package_dependencies rd fe)
        (lst ++ [mkResolvedPackage package_name (concreteVersion v1 info) info
          (translate_license st.table info.license info.classifiers dl w.opInput).1 src_uri fi
          (get_package_dependencies rd fe)])
        { st with
            table := (translate_license st.table info.license info.classifiers dl w.opInput).2,
            processed := st.processed ++ [mkResolvedPackage package_name
              (concreteVersion v1 info) info
              (translate_license st.table info.license info.classifiers dl w.opInput).1
              src_uri fi (get_package_dependencies rd fe)] } := by
  simp [tryBody, hv, hm, hs, hi, hr]

theorem tryBody_extends (w : World) (recur) (hrec : RecurExtends recur)
    (package_name : String) (version : Option String) (fe : Bool) (dl : Option String)
    (lst : List Package) (st : EngineState) :
    ∃ e, (tryBody w recur package_name version fe dl lst st).1 = lst ++ e := by
  rcases hv : resolveWildcard w package_name version with msg | v1
  · exact ⟨[], by simp [tryBody, hv]⟩
  · rcases hm : w.meta package_name v1 with msg | info
    · exact ⟨[], by simp [tryBody, hv, hm]⟩
    · rcases hs : w.sdist package_name v1 with msg | src_uri
      · exact ⟨[], by simp [tryBody, hv, hm, hs]⟩
      · rcases hi : w.introspect package_name (concreteVersion v1 info) src_uri with msg | fi
        · exact ⟨[], by simp [tryBody, hv, hm, hs, hi]⟩
        · rcases hr : requiresDistOf w package_name (concreteVersion v1 info) info with msg | rd
          · exact ⟨[], by simp [tryBody, hv, hm, hs, hi, hr]⟩
          · have htb := tryBody_success w recur package_name version fe dl lst st
              v1 info src_uri fi rd hv hm hs hi hr
            rw [htb]
            obtain ⟨e, he⟩ := depWalk_extends recur hrec (get_package_dependencies rd fe)
              (lst ++ [mkResolvedPackage package_name (concreteVersion v1 info) info
                (translate_license st.table info.license info.classifiers dl w.opInput).1
                src_uri fi (get_package_dependencies rd fe)])
              { st with
                  table := (translate_license st.table info.license info.classifiers dl w.opInput).2,
                  processed := st.processed ++ [mkResolvedPackage package_name
                    (concreteVersion v1 info) info
                    (translate_license st.table info.license info.classifiers dl w.opInput).1
                    src_uri fi (get_package_dependencies rd fe)] }
            exact ⟨_, by simpa [List.append_assoc] using he⟩

theorem resolveStep_extends (w : World) (recur) (hrec : RecurExtends recur)
    (package package_name : String) (version : Option String) (indent : Nat)
    (extra : Option String) (fe : Bool) (dl : Option String) (lst : List Package)
    (st : EngineState) (l2 : List Package) (s2 : EngineState)
    (h : resolveStep w recur package package_name version indent extra fe dl lst st = .ok (l2, s2)) :
    ∃ e, l2 = lst ++ e := by
  obtain ⟨e, he⟩ := tryBody_extends w recur hrec package_name version fe dl lst
    ({ st with logs := st.logs ++ [LogEntry.progress indent package extra version] })
  rcases htb : tryBody w recur package_name version fe dl lst
      ({ st with logs := st.logs ++ [LogEntry.progress indent package extra version] }) with
    ⟨l3, s3, e3⟩
  rw [htb] at he
  simp only at he
  simp only [resolveStep, htb] at h
  cases e3 with
  | ok u => simp at h; exact ⟨e, h.1 ▸ he⟩
  | error msg => simp at h; exact ⟨e, h.1 ▸ he⟩

theorem get_package_info_extends :
    ∀ (fuel : Nat) (w : World) (package : String) (version : Option String)
      (lst : List Package) (indent : Nat) (extra : Option String) (fe : Bool)
      (dl : Option String) (st : EngineState) (l2 : List Package) (s2 : EngineState),
    get_package_info w fuel package version (some lst) indent extra fe dl st = .ok (l2, s2) →
    ∃ e, l2 = lst ++ e := by
  intro fuel
  induction fuel with
  | zero =>
    intro w package version lst indent extra fe dl st l2 s2 h
    simp only [get_package_info, Option.getD_some] at h
    injection h with h2
    injection h2 with h3 h4
    exact ⟨[], by simp [h3.symm]⟩
  | succ fuel ih =>
    intro w package version lst indent extra fe dl st l2 s2 h
    simp only [get_package_info] at h
    rcases hc : check_package_already_processed (firstBracketSegment package) version
        st.processed lst with msg | ⟨b, ws⟩
    · rw [hc] at h; exact absurd h (by simp)
    · rw [hc] at h
      cases b with
      | true =>
        simp at h
        exact ⟨[], by simp [h.1.symm]⟩
      | false =>
        exact resolveStep_extends w _
          (fun nm vr l ex s l4 s4 hx => ih w nm vr l (indent + 2) ex fe dl s l4 s4 hx)
          package (firstBracketSegment package) version indent extra fe dl lst
          ({ st with logs := st.logs ++ ws }) l2 s2 h

theorem resolveStep_success (w : World) (recur) (hrec : RecurExtends recur)
    (package package_name : String) (version : Option String) (indent : Nat)
    (extra : Option String) (fe : Bool) (dl : Option String) (lst : List Package)
    (st : EngineState) (v1 : Option String) (info : PkgMeta) (src_uri : String)
    (fi : FileInfo) (rd : List Dependency)
    (hv : resolveWildcard w package_name version = .ok v1)
    (hm : w.meta package_name v1 = .ok info)
    (hs : w.sdist package_name v1 = .ok src_uri)
    (hi : w.introspect package_name (concreteVersion v1 info) src_uri = .ok fi)
    (hr : requiresDistOf w package_name (concreteVersion v1 info) info = .ok rd) :
    ∃ ext s2, resolveStep w recur package package_name version indent extra fe dl lst st =
      .ok (lst ++ [mkResolvedPackage package_name (concreteVersion v1 info) info
        (translate_license st.table info.license info.classifiers dl w.opInput).1 src_uri fi
        (get_package_dependencies rd fe)] ++ ext, s2) := by
  have htb := tryBody_success w recur package_name version fe dl lst
    ({ st with logs := st.logs ++ [LogEntry.progress indent package extra version] })
    v1 info src_uri fi rd hv hm hs hi hr
  simp only at htb
  obtain ⟨e, he⟩ := depWalk_extends recur hrec (get_package_dependencies rd fe) _ _
  rcases hdw : depWalk recur (get_package_dependencies rd fe)
      (lst ++ [mkResolvedPackage package_name (concreteVersion v1 info) info
        (translate_license st.table info.license info.classifiers dl w.opInput).1 src_uri fi
        (get_package_dependencies rd fe)])
      { st with
          logs := st.logs ++ [LogEntry.progress indent package extra version],
          table := (translate_license st.table info.license info.classifiers dl w.opInput).2,
          processed := st.processed ++ [mkResolvedPackage package_name
            (concreteVersion v1 info) info
            (translate_license st.table info.license info.classifiers dl w.opInput).1
            src_uri fi (get_package_dependencies rd fe)] } with ⟨l3, s3, e3⟩
  rw [hdw] at htb he
  simp only at he
  cases e3 with
  | ok u =>
    refine ⟨e, s3, ?_⟩
    simp [resolveStep, htb, he, List.append_assoc]
  | error msg =>
    refine ⟨e, { s3 with logs := s3.logs ++ [LogEntry.failure indent package msg] }, ?_⟩
    simp [resolveStep, htb, he, List.append_assoc]

theorem gpi_nonroot_resolves (w : World) (fuel : Nat) (package : String)
    (version : Option String) (lst : List Package) (indent : Nat) (extra : Option String)
    (fe : Bool) (dl : Option String) (st : EngineState) (ws : List LogEntry)
    (v1 : Option String) (info : PkgMeta) (src_uri : String) (fi : FileInfo)
    (rd : List Dependency)
    (hc : check_package_already_processed (firstBracketSegment package) version
      st.processed lst = .ok (false, ws))
    (hv : resolveWildcard w (firstBracketSegment package) version = .ok v1)
    (hm : w.meta (firstBracketSegment package) v1 = .ok info)
    (hs : w.sdist (firstBracketSegment package) v1 = .ok src_uri)
    (hi : w.introspect (firstBracketSegment package) (concreteVersion v1 info) src_uri = .ok fi)
    (hr : requiresDistOf w (firstBracketSegment package) (concreteVersion v1 info) info = .ok rd) :
    ∃ ext s2, get_package_info w (fuel + 1) package version (some lst) indent extra fe dl st =
      .ok (lst ++ [mkResolvedPackage (firstBracketSegment package) (concreteVersion v1 info) info
        (translate_license st.table info.license info.classifiers dl w.opInput).1 src_uri fi
        (get_package_dependencies rd fe)] ++ ext, s2) := by
  simp only [get_package_info, hc]
  exact resolveStep_success w
    (fun nm vr pks ex s => get_package_info w fuel nm vr pks (indent + 2) ex fe dl s)
    (fun nm vr l ex s l4 s4 hx =>
      get_package_info_extends fuel w nm vr l (indent + 2) ex fe dl s l4 s4 hx)
    package (firstBracketSegment package) version indent extra fe dl lst
    ({ st with logs := st.logs ++ ws }) v1 info src_uri fi rd hv hm hs hi hr

theorem gpi_root_resolves (w : World) (fuel : Nat) (package : String)
    (version : Option String) (indent : Nat) (extra : Option String)
    (fe : Bool) (dl : Option String) (st : EngineState)
    (v1 : Option String) (info : PkgMeta) (src_uri : String) (fi : FileInfo)
    (rd : List Dependency)
    (hv : resolveWildcard w (firstBracketSegment package) version = .ok v1)
    (hm : w.meta (firstBracketSegment package) v1 = .ok info)
    (hs : w.sdist (firstBracketSegment package) v1 = .ok src_uri)
    (hi : w.introspect (firstBracketSegment package) (concreteVersion v1 info) src_uri = .ok fi)
    (hr : requiresDistOf w (firstBracketSegment package) (concreteVersion v1 info) info = .ok rd) :
    ∃ ext s2, get_package_info w (fuel + 1) package version none indent extra fe dl st =
      .ok ([mkResolvedPackage (firstBracketSegment package) (concreteVersion v1 info) info
        (translate_license st.table info.license info.classifiers dl w.opInput).1 src_uri fi
        (get_package_dependencies rd fe)] ++ ext, s2) := by
  simp only [get_package_info]
  obtain ⟨ext, s2, hx⟩ := resolveStep_success w
    (fun nm vr pks ex s => get_package_info w fuel nm vr pks (indent + 2) ex fe dl s)
    (fun nm vr l ex s l4 s4 hx =>
      get_package_info_extends fuel w nm vr l (indent + 2) ex fe dl s l4 s4 hx)
    package (firstBracketSegment package) version indent extra fe dl [] st
    v1 info src_uri fi rd hv hm hs hi hr
  exact ⟨ext, s2, by simpa using hx⟩

/-! ### The claims -/

/-- Claim C3, counterexample.  The claim states `compare(a,b) = -compare(b,a)`
for all version strings.  At `a = b = ""` the code returns -1 for both
orientations (the `if not version1` guard), so the result is not the negation
of itself: the claim is false as stated. -/
theorem c3_counterexample :
    compare_versions "" "" = .ok (-1) ∧ ¬((-1 : Int) = -(-1 : Int)) :=
  ⟨rfl, by decide⟩

/-- Claim C3, amended.  For all NON-EMPTY version strings `a` and `b`, the
comparator is antisymmetric: `compare_versions b a` is `compare_versions a b`
with the result negated (and the two orientations raise together). -/
theorem c3_amended : ∀ a b : String, a ≠ "" → b ≠ "" →
    compare_versions b a = (compare_versions a b).map (fun r => -r) := by
  intro a b ha hb
  simp only [compare_versions, if_neg ha, if_neg hb]
  exact cmpParts_antisym (normalize a) (normalize b)

/-- Witness for `c3_amended` at the concrete pair `("1", "2")`. -/
theorem c3_witness :
    compare_versions "2" "1" = (compare_versions "1" "2").map (fun r => -r) :=
  c3_amended "1" "2" (by decide) (by decide)

/-- Claim C4, counterexample.  The claim states the comparator is total and
never raises.  Comparing `"1"` with `"a"` pairs the `int` part `1` with the
`str` part `"a"`, and Python 3 raises `TypeError` on `1 < "a"`: the code
raises, so the claim is false as stated. -/
theorem c4_counterexample : compare_versions "1" "a" = .error () := rfl

/-- Claim C4, amended.  Whenever every zipped part pair of the two versions
is numeric-vs-numeric or string-vs-string, `compare_versions` returns one of
less (-1), equal (0), greater (1) without raising; a mixed numeric/string
pair reached at the first difference raises `TypeError` instead of degrading
(see `c4_counterexample`). -/
theorem c4_amended : ∀ a b : String, allPairsSameKind a b = true →
    ∃ r, compare_versions a b = .ok r ∧ (r = -1 ∨ r = 0 ∨ r = 1) := by
  intro a b h
  by_cases ha : a = ""
  · exact ⟨-1, by simp [compare_versions, ha], Or.inl rfl⟩
  · simp only [compare_versions, if_neg ha]
    exact cmpParts_total (normalize a) (normalize b) (by simpa [allPairsSameKind] using h)

/-- Witness for `c4_amended` at the concrete pair `("1.a", "2.b")`. -/
theorem c4_witness :
    allPairsSameKind "1.a" "2.b" = true ∧
    (∃ r, compare_versions "1.a" "2.b" = .ok r ∧ (r = -1 ∨ r = 0 ∨ r = 1)) :=
  ⟨rfl, c4_amended "1.a" "2.b" rfl⟩

/-- Claim C5, counterexample.  The claim states `compare(a,a) = equal` for
EVERY version string `a`, but at `a = ""` the `if not version1` guard returns
less (-1), not equal: the claim is false as stated. -/
theorem c5_counterexample :
    compare_versions "" "" = .ok (-1) ∧ (-1 : Int) ≠ 0 := ⟨rfl, by decide⟩

/-- Claim C5, amended.  `compare_versions` splits each version on dots and
hyphens with purely numeric parts as integers (`normalize`), compares only
the overlapping prefix of the part lists and stops at the first differing
pair; `compare(a,a) = equal` for every NON-EMPTY `a`; an absent (`None`) or
empty first operand always yields less; `compare("1.2.3","1.2.10") = less`;
`compare("1.2","1.2.0") = equal`; and whenever one part list is a prefix of
the other the result is equal (trailing extra parts ignored). -/
theorem c5_amended :
    (∀ a : String, a ≠ "" → compare_versions a a = .ok 0) ∧
    (∀ x : String, compare_versions "" x = .ok (-1)) ∧
    compare_versions "1.2.3" "1.2.10" = .ok (-1) ∧
    compare_versions "1.2" "1.2.0" = .ok 0 ∧
    normalize "1.2-3" = [VPart.num 1, VPart.num 2, VPart.num 3] ∧
    (∀ a b : String, a ≠ "" →
      (normalize a <+: normalize b ∨ normalize b <+: normalize a) →
      compare_versions a b = .ok 0) ∧
    (∀ x : Option String, compare_versions_py none x = .ok (-1)) := by
  refine ⟨?_, ?_, rfl, rfl, rfl, ?_, fun _ => rfl⟩
  · intro a ha
    simp only [compare_versions, if_neg ha]
    exact cmpParts_self _
  · intro x
    simp [compare_versions]
  · intro a b ha hpre
    simp only [compare_versions, if_neg ha]
    rcases hpre with ⟨t, ht⟩ | ⟨t, ht⟩
    · rw [← ht]; exact cmpParts_overlapL _ _
    · rw [← ht]; exact cmpParts_overlapR _ _

/-- Witness for `c5_amended` at concrete inputs. -/
theorem c5_witness :
    (("1.7" : String) ≠ "" ∧ compare_versions "1.7" "1.7" = .ok 0) ∧
    ((normalize "1.2" <+: normalize "1.2.0.7") ∧ compare_versions "1.2" "1.2.0.7" = .ok 0) :=
  ⟨⟨by decide, c5_amended.1 "1.7" (by decide)⟩,
   ⟨by decide, c5_amended.2.2.2.2.2.1 "1.2" "1.2.0.7" (by decide) (Or.inl (by decide))⟩⟩

/-- Claim C6, counterexample.  The claim states the declared license string
is stripped of surrounding quotes AND WHITESPACE before lookup.  The code
strips only quote characters (`.strip("'").strip('"')`), so the declared
string `" MIT"` misses even though its whitespace-trimmed form `"MIT"` is in
the table, and the configured default is returned instead of the `MIT`
mapping the claim predicts. -/
theorem c6_counterexample :
    (translate_license LICENSES (some " MIT") [] (some "XDEF") "inp").1 = "XDEF" ∧
    lookupL LICENSES (some "MIT") = some "MIT" ∧ "XDEF" ≠ "MIT" :=
  ⟨rfl, rfl, by decide⟩

/-- Claim C6, amended.  The normalizer proceeds in order: (1) a non-empty
declared string is stripped of surrounding single-quote and double-quote
characters (whitespace is NOT stripped) and looked up, the mapped id returned
on a hit; (2) otherwise, or on a miss, the first classifier beginning with
`"License"` is looked up exactly and its mapping returned on a hit; (3) on a
total miss a configured (truthy) default license is returned. -/
theorem c6_amended :
    (∀ (tbl : LTable) (l : String) (classifiers : List String) (dl : Option String)
        (inp v : String), l ≠ "" → lookupL tbl (some (stripQuotes l)) = some v →
      translate_license tbl (some l) classifiers dl inp = (v, tbl)) ∧
    (∀ (tbl : LTable) (license : Option String) (classifiers : List String)
        (dl : Option String) (inp : String) (c v : String),
      declaredLookup tbl license = none →
      classifiers.find? (fun x => pyStartsWith x "License") = some c →
      lookupL tbl (some c) = some v →
      translate_license tbl license classifiers dl inp = (v, tbl)) ∧
    (∀ (tbl : LTable) (license : Option String) (classifiers : List String)
        (d inp : String),
      declaredLookup tbl license = none →
      (∀ c, classifiers.find? (fun x => pyStartsWith x "License") = some c →
        lookupL tbl (some c) = none) →
      d ≠ "" →
      translate_license tbl license classifiers (some d) inp = (d, tbl)) := by
  refine ⟨?_, ?_, ?_⟩
  · intro tbl l classifiers dl inp v hl hv
    simp [translate_license, declaredLookup, hl, hv]
  · intro tbl license classifiers dl inp c v hd hf hv
    simp [translate_license, hd, hf, hv]
  · intro tbl license classifiers d inp hd hc hdne
    rcases hf : classifiers.find? (fun x => pyStartsWith x "License") with _ | c
    · simp [translate_license, hd, hf, licenseFallback, hdne]
    · simp [translate_license, hd, hf, hc c hf, licenseFallback, hdne]

/-- Witness for `c6_amended`: all three branches at concrete inputs. -/
theorem c6_witness :
    translate_license [(some "MIT", "MIT")] (some "MIT") [] none "z" =
      ("MIT", [(some "MIT", "MIT")]) ∧
    translate_license [(some "License :: OSI Approved :: MIT License", "MIT")] none
      ["License :: OSI Approved :: MIT License"] none "z" =
      ("MIT", [(some "License :: OSI Approved :: MIT License", "MIT")]) ∧
    translate_license [] (some "zzz") [] (some "DEF") "z" = ("DEF", []) :=
  ⟨c6_amended.1 _ "MIT" [] none "z" "MIT" (by decide) rfl,
   c6_amended.2.1 _ none _ none "z" "License :: OSI Approved :: MIT License" "MIT" rfl rfl rfl,
   c6_amended.2.2 [] (some "zzz") [] "DEF" "z" rfl (fun c hc => Option.noConfusion hc) (by decide)⟩

/-- Claim C7: when both the declared string and the classifiers miss and no
default license is configured, the fallback prompts the operator (modelled by
`inp`), stores the supplied mapping into the license table keyed by the
ORIGINAL declared string, and returns it; afterwards a lookup of that same
original declared string in the updated table yields the learned mapping. -/
theorem c7_learned_mapping :
    ∀ (tbl : LTable) (license : Option String) (classifiers : List String) (inp : String),
      declaredLookup tbl license = none →
      (∀ c, classifiers.find? (fun x => pyStartsWith x "License") = some c →
        lookupL tbl (some c) = none) →
      translate_license tbl license classifiers none inp = (inp, insertL tbl license inp) ∧
      lookupL (insertL tbl license inp) license = some inp := by
  intro tbl license classifiers inp hd hc
  constructor
  · rcases hf : classifiers.find? (fun x => pyStartsWith x "License") with _ | c
    · simp [translate_license, hd, hf, licenseFallback]
    · simp [translate_license, hd, hf, hc c hf, licenseFallback]
  · exact lookupL_insertL tbl license inp

/-- Witness for `c7_learned_mapping` at a concrete unknown license. -/
theorem c7_witness :
    translate_license [(some "MIT", "MIT")] (some "WTFPL") [] none "NEWMAP" =
      ("NEWMAP", insertL [(some "MIT", "MIT")] (some "WTFPL") "NEWMAP") ∧
    lookupL (insertL [(some "MIT", "MIT")] (some "WTFPL") "NEWMAP") (some "WTFPL") =
      some "NEWMAP" :=
  c7_learned_mapping [(some "MIT", "MIT")] (some "WTFPL") [] "NEWMAP" rfl
    (fun c hc => Option.noConfusion hc)

/-- Claim C8, counterexample.  The claim states the engine keeps exactly the
versions whose non-wildcard segments match positionally and selects the
lexicographically-greatest match.  Both parts fail: (1) with pattern
`"1.*.3"` the loop breaks at the first `"*"` and keeps `"1.9.9"` although its
third segment differs from the pattern's `"3"`; (2) with pattern `"1.*"`
over releases enumerated `["1.9", "1.10"]` the code takes `pv[-1] = "1.10"`,
although `"1.10"` is lexicographically SMALLER than the match `"1.9"`. -/
theorem c8_counterexample :
    wildcard_select ["1.9.9"] "1.*.3" = .ok "1.9.9" ∧
    wildcard_select ["1.9", "1.10"] "1.*" = .ok "1.10" ∧
    pyStrLt "1.10".toList "1.9".toList = true :=
  ⟨rfl, rfl, rfl⟩

/-- Claim C8, amended.  For a wildcard request, the engine keeps exactly the
registry versions whose dot-segments match the pattern positionally on every
segment strictly BEFORE the pattern's first wildcard (segments at or after
the first wildcard are never checked), and selects the LAST match in the
registry's enumeration order; provided every candidate has at least as many
segments as the pattern's pre-wildcard prefix (otherwise the scan raises
`IndexError`), and an empty match set also raises `IndexError`. -/
theorem c8_amended :
    ∀ (releases : List String) (version : String),
      (∀ r ∈ releases,
        (preWildcardSegs version).length ≤ (splitChar '.' r.toList).length) →
      wildcard_select releases version =
        match (releases.filter (fun r => matchesBeforeFirstWildcard version r)).getLast? with
        | some x => .ok x
        | none => .error () := by
  intro releases version h
  unfold wildcard_select
  rw [collectMatches_eq version releases h]

/-- Witness for `c8_amended` at pattern `"1.2.*"`. -/
theorem c8_witness :
    (∀ r ∈ ["1.2.1", "1.2.3", "1.3.0"],
      (preWildcardSegs "1.2.*").length ≤ (splitChar '.' r.toList).length) ∧
    wildcard_select ["1.2.1", "1.2.3", "1.3.0"] "1.2.*" =
      match (["1.2.1", "1.2.3", "1.3.0"].filter
          (fun r => matchesBeforeFirstWildcard "1.2.*" r)).getLast? with
      | some x => .ok x
      | none => .error () :=
  ⟨by decide, c8_amended ["1.2.1", "1.2.3", "1.3.0"] "1.2.*" (by decide)⟩

/-- Claim C2: per-package failure isolation.  (1) For every world (however
the registry, artifact and dependency oracles fail) a root request always
returns normally: no per-package failure ever aborts the run.  (2) In a
concrete run where root `A` depends on `B` (whose registry query raises) and
`C`: the result still holds `A` and the sibling `C`, and the failure is
reported with the failing package's name and its recursion depth (indent 2). -/
theorem c2_failure_isolation :
    (∀ (w : World) (fuel : Nat) (package : String) (version : Option String)
        (indent : Nat) (extra : Option String) (fe : Bool) (dl : Option String)
        (st : EngineState),
      ∃ p, get_package_info w fuel package version none indent extra fe dl st = .ok p) ∧
    runC2.1.map (fun p => p.name) = ["A", "C"] ∧
    LogEntry.failure 2 "B" "boom" ∈ runC2.2.logs ∧
    LogEntry.progress 2 "C" none (some "1.0") ∈ runC2.2.logs := by
  refine ⟨?_, rfl, by decide, by decide⟩
  intro w fuel package version indent extra fe dl st
  exact get_package_info_root_ok fuel w package version indent extra fe dl st

/-- Claim C1, counterexample.  The claim states a name appears in the result
at most once per run and that a request for an already-resolved name is
dropped even when strictly newer.  In the concrete run `runC1` (roots
`foo==1.0` then `A`, whose dependency is `foo==2.0`), the strictly-newer
request for `foo` is warned about but NOT dropped: `foo` appears twice in the
final result, at 1.0 and again at 2.0. -/
theorem c1_counterexample :
    runC1.1.map (fun p => (p.name, p.version)) =
      [("foo", some "1.0"), ("A", some "0.5"), ("foo", some "2.0")] ∧
    LogEntry.warning "foo" (some "2.0") (some "1.0") ∈ runC1.2.logs := by
  exact ⟨rfl, by decide⟩

/-- Claim C1, amended.  (Drop) When some already-listed entry with the same
name compares not-older than the request (comparator result other than
greater, all comparisons succeeding), the request is dropped: the result list
is returned unchanged (only warning lines are printed).  (Proceed) When EVERY
same-name entry compares strictly older than the request, a version-conflict
warning is emitted per entry but the request is NOT dropped: the skip check
returns false and, when resolution succeeds, a SECOND `ResolvedPackage` with
the same name is appended, so a name can appear more than once per run. -/
theorem c1_amended :
    (∀ (w : World) (fuel : Nat) (package : String) (version : Option String)
        (lst : List Package) (indent : Nat) (extra : Option String) (fe : Bool)
        (dl : Option String) (st : EngineState),
      (∀ p ∈ st.processed ++ lst, firstBracketSegment package = p.name →
        ∃ r, compare_versions_py version p.version = .ok r) →
      (∃ p ∈ st.processed ++ lst, firstBracketSegment package = p.name ∧
        ∃ r, compare_versions_py version p.version = .ok r ∧ r ≠ 1) →
      ∃ ws, get_package_info w (fuel + 1) package version (some lst) indent extra fe dl st =
        .ok (lst, { st with logs := st.logs ++ ws })) ∧
    (∀ (w : World) (fuel : Nat) (package : String) (version : Option String)
        (lst : List Package) (indent : Nat) (extra : Option String) (fe : Bool)
        (dl : Option String) (st : EngineState) (v1 : Option String) (info : PkgMeta)
        (src_uri : String) (fi : FileInfo) (rd : List Dependency),
      (∃ p ∈ st.processed ++ lst, firstBracketSegment package = p.name) →
      (∀ p ∈ st.processed ++ lst, firstBracketSegment package = p.name →
        compare_versions_py version p.version = .ok 1) →
      resolveWildcard w (firstBracketSegment package) version = .ok v1 →
      w.meta (firstBracketSegment package) v1 = .ok info →
      w.sdist (firstBracketSegment package) v1 = .ok src_uri →
      w.introspect (firstBracketSegment package) (concreteVersion v1 info) src_uri = .ok fi →
      requiresDistOf w (firstBracketSegment package) (concreteVersion v1 info) info = .ok rd →
      check_package_already_processed (firstBracketSegment package) version st.processed lst =
        .ok (false, warnsOf (firstBracketSegment package) version (st.processed ++ lst)) ∧
      warnsOf (firstBracketSegment package) version (st.processed ++ lst) ≠ [] ∧
      ∃ ext s2, get_package_info w (fuel + 1) package version (some lst) indent extra fe dl st =
        .ok (lst ++ [mkResolvedPackage (firstBracketSegment package) (concreteVersion v1 info)
          info (translate_license st.table info.license info.classifiers dl w.opInput).1
          src_uri fi (get_package_dependencies rd fe)] ++ ext, s2)) := by
  constructor
  · intro w fuel package version lst indent extra fe dl st h1 h2
    obtain ⟨ws, hws⟩ :=
      checkLoop_skips (firstBracketSegment package) version (st.processed ++ lst) [] h1 h2
    exact ⟨ws, by simp [get_package_info, check_package_already_processed, hws]⟩
  · intro w fuel package version lst indent extra fe dl st v1 info src_uri fi rd h1 h2
      hv hm hs hi hr
    have hchk := checkLoop_all_newer (firstBracketSegment package) version
      (st.processed ++ lst) [] h2
    rw [List.nil_append] at hchk
    refine ⟨hchk, ?_, ?_⟩
    · rcases h1 with ⟨p, hp, hpn⟩
      intro hnil
      have hmem : LogEntry.warning (firstBracketSegment package) version p.version ∈
          warnsOf (firstBracketSegment package) version (st.processed ++ lst) := by
        simp only [warnsOf, List.mem_filterMap]
        exact ⟨p, hp, by simp [hpn]⟩
      rw [hnil] at hmem
      exact absurd hmem (List.not_mem_nil _)
    · exact gpi_nonroot_resolves w fuel package version lst indent extra fe dl st _
        v1 info src_uri fi rd hchk hv hm hs hi hr

/-- Witness for `c1_amended`: the drop branch at a not-older entry, and the
proceed branch at a strictly-newer request, both against concrete worlds. -/
theorem c1_witness :
    (∃ ws, get_package_info worldC1 1 "foo" (some "1.0") (some []) 0 none false none
        (initState [mkNopePackage "foo" (some "2.0")] []) =
      .ok ([], { initState [mkNopePackage "foo" (some "2.0")] [] with logs := [] ++ ws })) ∧
    (check_package_already_processed "foo" (some "2.0")
        [mkNopePackage "foo" (some "1.0")] [] =
      .ok (false, warnsOf "foo" (some "2.0") ([mkNopePackage "foo" (some "1.0")] ++ [])) ∧
    warnsOf "foo" (some "2.0") ([mkNopePackage "foo" (some "1.0")] ++ []) ≠ [] ∧
    ∃ ext s2, get_package_info worldC1 1 "foo" (some "2.0") (some []) 0 none false none
        (initState [mkNopePackage "foo" (some "1.0")] smallTable) =
      .ok ([] ++ [mkResolvedPackage "foo" (concreteVersion (some "2.0") (metaNoDeps "2.0"))
        (metaNoDeps "2.0")
        (translate_license smallTable (metaNoDeps "2.0").license (metaNoDeps "2.0").classifiers
          none worldC1.opInput).1
        "https://files/pkg.tar.gz" fi0 (get_package_dependencies [] false)] ++ ext, s2)) :=
  ⟨c1_amended.1 worldC1 0 "foo" (some "1.0") [] 0 none false none
      (initState [mkNopePackage "foo" (some "2.0")] [])
      (fun p hp _ => by
        simp only [initState, List.append_nil, List.mem_singleton] at hp
        subst hp
        exact ⟨-1, rfl⟩)
      ⟨mkNopePackage "foo" (some "2.0"), by simp [initState], rfl, -1, rfl, by decide⟩,
   c1_amended.2 worldC1 0 "foo" (some "2.0") [] 0 none false none
      (initState [mkNopePackage "foo" (some "1.0")] smallTable) (some "2.0")
      (metaNoDeps "2.0") "https://files/pkg.tar.gz" fi0 []
      ⟨mkNopePackage "foo" (some "1.0"), by simp [initState], rfl⟩
      (fun p hp _ => by
        simp only [initState, List.append_nil, List.mem_singleton] at hp
        subst hp
        rfl)
      rfl rfl rfl rfl rfl⟩

/-- Claim C9: for a non-root request whose name already appears among the
processed or accumulated packages at a not-older version (comparator result
other than greater, all comparisons on same-name entries succeeding), the
request is skipped: the result list and state (other than warning lines) are
unchanged, and the outcome is the same for EVERY world, i.e. no network
access is involved.  In the concrete shared-dependency run `runC9` (root `A`,
siblings `B` and `C` both depending on `D==1.0`), `D` is resolved exactly
once. -/
theorem c9_skip_idempotent :
    (∀ (fuel : Nat) (package : String) (version : Option String) (lst : List Package)
        (indent : Nat) (extra : Option String) (fe : Bool) (dl : Option String)
        (st : EngineState),
      (∀ p ∈ st.processed ++ lst, firstBracketSegment package = p.name →
        ∃ r, compare_versions_py version p.version = .ok r) →
      (∃ p ∈ st.processed ++ lst, firstBracketSegment package = p.name ∧
        ∃ r, compare_versions_py version p.version = .ok r ∧ r ≠ 1) →
      ∃ ws, ∀ w : World,
        get_package_info w (fuel + 1) package version (some lst) indent extra fe dl st =
          .ok (lst, { st with logs := st.logs ++ ws })) ∧
    runC9.1.map (fun p => p.name) = ["A", "B", "D", "C"] ∧
    (runC9.1.filter (fun p => p.name == "D")).length = 1 := by
  refine ⟨?_, rfl, rfl⟩
  intro fuel package version lst indent extra fe dl st h1 h2
  obtain ⟨ws, hws⟩ :=
    checkLoop_skips (firstBracketSegment package) version (st.processed ++ lst) [] h1 h2
  exact ⟨ws, fun w => by simp [get_package_info, check_package_already_processed, hws]⟩

/-- Witness for `c9_skip_idempotent`: a request for `D==1.0` against a state
already holding `D` at 1.0 is skipped identically in every world. -/
theorem c9_witness :
    ∃ ws, ∀ w : World,
      get_package_info w 1 "D" (some "1.0") (some []) 0 none false none
        (initState preseedD smallTable) =
      .ok ([], { initState preseedD smallTable with logs := [] ++ ws }) :=
  c9_skip_idempotent.1 0 "D" (some "1.0") [] 0 none false none
    (initState preseedD smallTable)
    (fun p hp _ => by
      simp only [initState, preseedD, parse_existing_packages, List.map, List.append_nil,
        List.mem_singleton] at hp
      subst hp
      exact ⟨0, rfl⟩)
    ⟨mkNopePackage "D" (some "1.0"), by decide, by decide, 0, by decide, by decide⟩

/-- Claim C10: a root request (`packages = None`) bypasses the
already-processed skip check entirely: whenever the oracles resolve the
request, the package is appended to the result even when the pre-seeded
processed set already holds its name at a not-older version.  Concretely,
with `PROCESSED_PACKAGES` pre-seeded from the line `D==1.0`: the root request
`D==1.0` is fully re-resolved (`runC10root`), while the same `D==1.0` reached
as a dependency of root `A` is skipped (`runC10dep`) - pre-seeding prevents
re-resolution only of transitively reached dependencies, never of roots. -/
theorem c10_root_bypass :
    (∀ (w : World) (fuel : Nat) (package : String) (version : Option String)
        (indent : Nat) (extra : Option String) (fe : Bool) (dl : Option String)
        (st : EngineState) (v1 : Option String) (info : PkgMeta) (src_uri : String)
        (fi : FileInfo) (rd : List Dependency),
      (∃ p ∈ st.processed, firstBracketSegment package = p.name ∧
        ∃ r, compare_versions_py version p.version = .ok r ∧ r ≠ 1) →
      resolveWildcard w (firstBracketSegment package) version = .ok v1 →
      w.meta (firstBracketSegment package) v1 = .ok info →
      w.sdist (firstBracketSegment package) v1 = .ok src_uri →
      w.introspect (firstBracketSegment package) (concreteVersion v1 info) src_uri = .ok fi →
      requiresDistOf w (firstBracketSegment package) (concreteVersion v1 info) info = .ok rd →
      ∃ ext s2, get_package_info w (fuel + 1) package version none indent extra fe dl st =
        .ok ([mkResolvedPackage (firstBracketSegment package) (concreteVersion v1 info) info
          (translate_license st.table info.license info.classifiers dl w.opInput).1 src_uri fi
          (get_package_dependencies rd fe)] ++ ext, s2)) ∧
    runC10root.1.map (fun p => (p.name, p.version)) = [("D", some "1.0")] ∧
    runC10dep.1.map (fun p => p.name) = ["A"] := by
  refine ⟨?_, rfl, rfl⟩
  intro w fuel package version indent extra fe dl st v1 info src_uri fi rd _ hv hm hs hi hr
  exact gpi_root_resolves w fuel package version indent extra fe dl st v1 info src_uri fi rd
    hv hm hs hi hr

/-- Witness for `c10_root_bypass`: the root request `D==1.0` against the
pre-seeded state, where the skip condition provably holds yet the package is
resolved and appended anyway. -/
theorem c10_witness :
    ∃ ext s2, get_package_info worldC10 1 "D" (some "1.0") none 0 none false none
        (initState preseedD smallTable) =
      .ok ([mkResolvedPackage "D" (concreteVersion (some "1.0") (metaNoDeps "1.0"))
        (metaNoDeps "1.0")
        (translate_license smallTable (metaNoDeps "1.0").license (metaNoDeps "1.0").classifiers
          none worldC10.opInput).1
        "https://files/pkg.tar.gz" fi0 (get_package_dependencies [] false)] ++ ext, s2) :=
  c10_root_bypass.1 worldC10 0 "D" (some "1.0") 0 none false none
    (initState preseedD smallTable) (some "1.0") (metaNoDeps "1.0")
    "https://files/pkg.tar.gz" fi0 []
    ⟨mkNopePackage "D" (some "1.0"), by decide, by decide, 0, by decide, by decide⟩
    rfl rfl rfl rfl rfl

end Pipoe
